import Mathlib

/-!
# Verification of the Math Tutor evaluation harness

Shallow embedding of `src/evaluator.py` (class `MathTutorEvaluator`) together
with the record model it produces, and proofs of the specification claims
about it.

Modelling conventions:
* Python strings are Lean `String`s; regular-expression matching is embedded
  by a small backtracking engine (`Pat`, `mmatch`) that implements exactly the
  constructs the five fixed extraction patterns and the scorer patterns use:
  literals (case-insensitive, mirroring `re.IGNORECASE`), character classes,
  greedy `*`/`+` and lazy `+?` over character classes, greedy `?`, alternation
  (left first), `$` (end of input; in the one pattern using it, `$` stands in
  alternation after `\n`, so Python's before-final-newline case coincides),
  and negative lookahead `(?!...)`.  `re.search` semantics (leftmost match,
  with the usual backtracking order at each position) is `searchCapAux` /
  `searchB`.  Case folding and the `\w`/`\s`/`\d` classes are modelled at
  ASCII scope, which covers every string any claim talks about.
* The source file `evaluator.py` is stored with a double text encoding: the
  characters `°`, `²` and `π` that the author typed appear in the file as the
  literal characters `¬∞`, `¬≤` and `œÄ`.  The embedding reproduces the file
  as it is, i.e. the patterns contain those literal characters.
* Python floats are modelled as exact rationals (`ℚ`); all score arithmetic
  in the claims is small exact arithmetic.
* Fallible steps (prompt generation, the model call) return `Except String`;
  a caught Python exception is the `.error` case carrying `str(e)`.
* The model-serving collaborator (`api_client.get_completion`) is an
  arbitrary function from a call counter (the number of completions requested
  so far; successive calls may answer differently) and a prompt to a result.
* `datetime.now()` timestamps and the file-writing side effects of
  `save_results` are real-time/IO and are not part of the embedded state;
  no claim depends on them.
-/

/-! ## Character classes (ASCII scope of Python `\s`, `\d`, `\w`, `.`) -/

/-- Python `\s` at ASCII scope: space, tab, newline, carriage return,
vertical tab, form feed. -/
def isSpaceChar (c : Char) : Bool :=
  c = ' ' || c = '\t' || c = '\n' || c = '\r' || c = '\x0b' || c = '\x0c'

/-- Python `\d` at ASCII scope. -/
def isDigitChar (c : Char) : Bool :=
  c.isDigit

/-- The class `[0-9.]`. -/
def isDotDigit (c : Char) : Bool :=
  c.isDigit || c = '.'

/-- The class `[0-9.+-]`. -/
def isNumSign (c : Char) : Bool :=
  c.isDigit || c = '.' || c = '+' || c = '-'

/-- Python `\w` at ASCII scope: alphanumerics and underscore. -/
def isWordChar (c : Char) : Bool :=
  c.isAlphanum || c = '_'

/-- The class `.` (any character except a newline; no DOTALL flag is used). -/
def notNewline (c : Char) : Bool :=
  c ≠ '\n'

/-- Case-insensitive character comparison (`re.IGNORECASE`, ASCII scope). -/
def charIEq (a b : Char) : Bool :=
  a.toLower = b.toLower

/-! ## The pattern AST and the backtracking matcher -/

/-- Abstract syntax of the regular-expression fragment used by
`evaluator.py`.  Stars and pluses occur in the source only over single
character classes, which is what the constructors provide. -/
inductive Pat where
  | eps
  | lits (cs : List Char)
  | cls (f : Char → Bool)
  | seq (p q : Pat)
  | alt (p q : Pat)
  | opt (p : Pat)
  | star (f : Char → Bool)
  | plus (f : Char → Bool)
  | lazyPlus (f : Char → Bool)
  | eol
  | nla (p : Pat)

/-- Literal pattern from a string. -/
def Pat.str (s : String) : Pat :=
  .lits s.data

/-- Match a literal character sequence case-insensitively, returning the
rest of the input. -/
def litsMatch : List Char → List Char → Option (List Char)
  | [], s => some s
  | _ :: _, [] => none
  | c :: cs, d :: s => if charIEq c d then litsMatch cs s else none

/-- Greedy star over a character class, in continuation style: the longest
repetition is tried first, backtracking to shorter ones. -/
def starRun (f : Char → Bool) (k : List Char → Option (List Char)) :
    List Char → Option (List Char)
  | [] => k []
  | c :: s =>
    if f c then
      match starRun f k s with
      | some r => some r
      | none => k (c :: s)
    else k (c :: s)

/-- Lazy plus over a character class: the shortest repetition (one
character) is tried first, extending on failure. -/
def lazyPlusRun (f : Char → Bool) (k : List Char → Option (List Char)) :
    List Char → Option (List Char)
  | [] => none
  | c :: s =>
    if f c then
      match k s with
      | some r => some r
      | none => lazyPlusRun f k s
    else none

/-- The backtracking matcher.  `mmatch p s k` tries to match `p` at the
start of `s` and passes the remaining input to the continuation `k`,
exploring alternatives in Python's backtracking order (alternation left
first, greedy quantifiers longest first, lazy quantifiers shortest
first). -/
def mmatch : Pat → List Char → (List Char → Option (List Char)) → Option (List Char)
  | .eps, s, k => k s
  | .lits cs, s, k =>
    match litsMatch cs s with
    | some s' => k s'
    | none => none
  | .cls f, s, k =>
    match s with
    | [] => none
    | c :: s' => if f c then k s' else none
  | .seq p q, s, k => mmatch p s (fun s' => mmatch q s' k)
  | .alt p q, s, k =>
    match mmatch p s k with
    | some r => some r
    | none => mmatch q s k
  | .opt p, s, k =>
    match mmatch p s k with
    | some r => some r
    | none => k s
  | .star f, s, k => starRun f k s
  | .plus f, s, k =>
    match s with
    | [] => none
    | c :: s' => if f c then starRun f k s' else none
  | .lazyPlus f, s, k => lazyPlusRun f k s
  | .eol, s, k =>
    match s with
    | [] => k []
    | _ :: _ => none
  | .nla p, s, k =>
    match mmatch p s some with
    | some _ => none
    | none => k s

/-- A pattern with a single capturing group: `pre` before the group, `grp`
the group body, `suf` after it.  Each of the five extraction patterns of
`extract_final_answer` has exactly one group and fits this shape. -/
structure CPat where
  pre : Pat
  grp : Pat
  suf : Pat

/-- Try the captured pattern at the start of the input; on success return
the characters the group consumed. -/
def matchCapAt (p : CPat) (s : List Char) : Option (List Char) :=
  mmatch p.pre s (fun s1 =>
    mmatch p.grp s1 (fun s2 =>
      mmatch p.suf s2 (fun _ => some (s1.take (s1.length - s2.length)))))

/-- `re.search` with a capture: try successive start positions from the
left, returning group 1 of the leftmost match. -/
def searchCapAux (p : CPat) : List Char → Option (List Char)
  | [] => matchCapAt p []
  | c :: s =>
    match matchCapAt p (c :: s) with
    | some g => some g
    | none => searchCapAux p s

/-- Boolean `re.search`: does the pattern match anywhere? -/
def searchB (p : Pat) : List Char → Bool
  | [] => (mmatch p [] some).isSome
  | c :: s => (mmatch p (c :: s) some).isSome || searchB p s

/-! ## Python string helpers -/

/-- Python `str.strip()` on a character list (ASCII whitespace scope). -/
def pyStripList (l : List Char) : List Char :=
  ((l.dropWhile isSpaceChar).reverse.dropWhile isSpaceChar).reverse

/-- Python `str.strip()`. -/
def pyStrip (s : String) : String :=
  ⟨pyStripList s.data⟩

/-- Leftmost maximal run of characters of a class: the first element of
Python `re.findall(class+, s)`, if any. -/
def firstRun (f : Char → Bool) : List Char → Option (List Char)
  | [] => none
  | c :: s => if f c then some (c :: s.takeWhile f) else firstRun f s

/-- Is the first list an initial segment of the second (exact characters)? -/
def leadsWith : List Char → List Char → Bool
  | [], _ => true
  | _ :: _, [] => false
  | c :: cs, d :: ds => c = d && leadsWith cs ds

/-- Python's substring test `needle in hay` for strings: the needle occurs
contiguously somewhere in the hay (the empty needle occurs everywhere). -/
def substringOf (needle : List Char) : List Char → Bool
  | [] => leadsWith needle []
  | c :: t => leadsWith needle (c :: t) || substringOf needle t

/-- Does the line contain a digit (`re.search(r'[0-9]', line)`)? -/
def containsDigit (l : List Char) : Bool :=
  l.any Char.isDigit

/-- Scan lines in reverse order (last line first) and return the first one
containing a digit, mirroring `for line in reversed(lines)`. -/
def lastDigitLine : List (List Char) → Option (List Char)
  | [] => none
  | l :: ls =>
    match lastDigitLine ls with
    | some r => some r
    | none => if containsDigit l then some l else none

/-! ## The five extraction patterns of `extract_final_answer`

Source, `evaluator.py` lines 27-33 (characters reproduced as stored in the
file, see the header comment on the double encoding):
```text
r"(?:Answer|Final Answer|Result):\s*(.+?)(?:\n|$)"
r"(?:x\s*=\s*|=\s*)([0-9.+-]+)"
r"([0-9.]+\s*(?:cm¬≤|cm|km/hr|¬∞|degrees)?)"
r"(\d+/\d+)"
r"(x\s*=\s*[0-9]+(?:\s*or\s*x\s*=\s*[0-9]+)?)"
```
-/

/-- Pattern 1: `(?:Answer|Final Answer|Result):\s*(.+?)(?:\n|$)`. -/
def pat1 : CPat where
  pre := .seq (.alt (Pat.str ("Answer")) (.alt (Pat.str ("Final Answer")) (Pat.str ("Result"))))
           (.seq (Pat.str (":")) (.star isSpaceChar))
  grp := .lazyPlus notNewline
  suf := .alt (Pat.str ("\n")) .eol

/-- Pattern 2: `(?:x\s*=\s*|=\s*)([0-9.+-]+)`. -/
def pat2 : CPat where
  pre := .alt (.seq (Pat.str ("x")) (.seq (.star isSpaceChar) (.seq (Pat.str ("=")) (.star isSpaceChar))))
           (.seq (Pat.str ("=")) (.star isSpaceChar))
  grp := .plus isNumSign
  suf := .eps

/-- Pattern 3: `([0-9.]+\s*(?:cm¬≤|cm|km/hr|¬∞|degrees)?)` — the unit
alternatives contain the literal characters `¬≤` and `¬∞` exactly as stored
in the source file. -/
def pat3 : CPat where
  pre := .eps
  grp := .seq (.plus isDotDigit)
           (.seq (.star isSpaceChar)
             (.opt (.alt (Pat.str ("cm¬≤")) (.alt (Pat.str ("cm"))
               (.alt (Pat.str ("km/hr")) (.alt (Pat.str ("¬∞")) (Pat.str ("degrees"))))))))
  suf := .eps

/-- Pattern 4: `(\d+/\d+)` (fractions). -/
def pat4 : CPat where
  pre := .eps
  grp := .seq (.plus isDigitChar) (.seq (Pat.str ("/")) (.plus isDigitChar))
  suf := .eps

/-- The sub-pattern `x\s*=\s*[0-9]+` of pattern 5. -/
def xEqNum : Pat :=
  .seq (Pat.str ("x")) (.seq (.star isSpaceChar)
    (.seq (Pat.str ("=")) (.seq (.star isSpaceChar) (.plus isDigitChar))))

/-- Pattern 5: `(x\s*=\s*[0-9]+(?:\s*or\s*x\s*=\s*[0-9]+)?)` (multiple
solutions). -/
def pat5 : CPat where
  pre := .eps
  grp := .seq xEqNum
           (.opt (.seq (.star isSpaceChar) (.seq (Pat.str ("or"))
             (.seq (.star isSpaceChar) xEqNum))))
  suf := .eps

/-- The ordered pattern list of `extract_final_answer`. -/
def extractPatterns : List CPat :=
  [pat1, pat2, pat3, pat4, pat5]

/-- The pattern loop: first pattern that matches wins; its group 1 is
returned stripped (`match.group(1).strip()`). -/
def tryPatterns : List CPat → List Char → Option (List Char)
  | [], _ => none
  | p :: ps, s =>
    match searchCapAux p s with
    | some g => some (pyStripList g)
    | none => tryPatterns ps s

/-- `MathTutorEvaluator.extract_final_answer` (`evaluator.py` lines 24-46):
try the five patterns in order; otherwise return the last line containing a
digit, stripped; otherwise the sentinel. -/
def extract_final_answer (response_text : String) : String :=
  match tryPatterns extractPatterns response_text.data with
  | some g => ⟨g⟩
  | none =>
    match lastDigitLine ((pyStripList response_text.data).splitOn '\n') with
    | some line => ⟨pyStripList line⟩
    | none => "No answer found"

/-! ## The scorers -/

/-- The normalization of `score_accuracy`:
`re.sub(r'[^\w\d./=\s]', '', str(x).lower())` — keep word characters
(alphanumerics and underscore), `.`, `/`, `=`, whitespace; drop the
rest; lower-case first. -/
def pyNormalize (s : String) : List Char :=
  (s.data.map Char.toLower).filter (fun c => isWordChar c || c = '.' || c = '/' || c = '=' || isSpaceChar c)

/-- `MathTutorEvaluator.score_accuracy` (`evaluator.py` lines 48-69).
Substring containment either way on the normalized strings scores 1.0,
otherwise equality of the first `[0-9.]+` runs scores 1.0, otherwise 0.0.
(The `try/except` in the source guards calls that cannot raise.) -/
def score_accuracy (expected actual : String) : ℚ :=
  let expected_clean := pyNormalize expected
  let actual_clean := pyNormalize actual
  if substringOf expected_clean actual_clean || substringOf actual_clean expected_clean then 1
  else
    match firstRun isDotDigit expected_clean, firstRun isDotDigit actual_clean with
    | some en, some an => if en = an then 1 else 0
    | _, _ => 0

/-- `step\s*\d+|first|second|third|next|then|finally`. -/
def stepsPat : Pat :=
  .alt (.seq (Pat.str ("step")) (.seq (.star isSpaceChar) (.plus isDigitChar)))
    (.alt (Pat.str ("first")) (.alt (Pat.str ("second")) (.alt (Pat.str ("third"))
      (.alt (Pat.str ("next")) (.alt (Pat.str ("then")) (Pat.str ("finally")))))))

/-- `because|since|therefore|thus|so|reason|explanation`. -/
def causalPat : Pat :=
  .alt (Pat.str ("because")) (.alt (Pat.str ("since")) (.alt (Pat.str ("therefore"))
    (.alt (Pat.str ("thus")) (.alt (Pat.str ("so")) (.alt (Pat.str ("reason")) (Pat.str ("explanation")))))))

/-- `formula|equation|method|approach|technique`. -/
def methodPat : Pat :=
  .alt (Pat.str ("formula")) (.alt (Pat.str ("equation")) (.alt (Pat.str ("method"))
    (.alt (Pat.str ("approach")) (Pat.str ("technique")))))

/-- `MathTutorEvaluator.score_reasoning_clarity` (`evaluator.py` lines
71-92): base 1, four independent +1 bonuses, capped at 5. -/
def score_reasoning_clarity (response_text : String) : Nat :=
  let s := response_text.data
  let score := 1
  let score := if searchB stepsPat s then score + 1 else score
  let score := if searchB causalPat s then score + 1 else score
  let score := if searchB methodPat s then score + 1 else score
  let lines := (pyStripList s).splitOn '\n'
  let score := if 3 ≤ lines.length then score + 1 else score
  min score 5

/-- `œÄ\s*=\s*[^2][^2]` — the first incorrect-fact pattern; the file stores
the two literal characters `œÄ` (the double encoding of `π`). -/
def piPat : Pat :=
  .seq (Pat.str ("œÄ")) (.seq (.star isSpaceChar) (.seq (Pat.str ("="))
    (.seq (.star isSpaceChar) (.seq (.cls (fun c => c ≠ '2')) (.cls (fun c => c ≠ '2'))))))

/-- `sin\s*30¬∞?\s*=\s*(?!0\.5|1/2)` — the second incorrect-fact pattern;
the file stores the literal characters `¬∞` (the double encoding of `°`),
so after `30` the character `¬` is mandatory and `∞` optional. -/
def sinPat : Pat :=
  .seq (Pat.str ("sin")) (.seq (.star isSpaceChar) (.seq (Pat.str ("30¬"))
    (.seq (.opt (Pat.str ("∞"))) (.seq (.star isSpaceChar) (.seq (Pat.str ("="))
      (.seq (.star isSpaceChar) (.nla (.alt (Pat.str ("0.5")) (Pat.str ("1/2"))))))))))

/-- `cos\s*90¬∞?\s*=\s*(?!0)` — the third incorrect-fact pattern (same
double-encoded `¬∞`). -/
def cosPat : Pat :=
  .seq (Pat.str ("cos")) (.seq (.star isSpaceChar) (.seq (Pat.str ("90¬"))
    (.seq (.opt (Pat.str ("∞"))) (.seq (.star isSpaceChar) (.seq (Pat.str ("="))
      (.seq (.star isSpaceChar) (.nla (Pat.str ("0")))))))))

/-- The `incorrect_facts` pattern list (`evaluator.py` lines 99-103). -/
def incorrect_facts : List Pat :=
  [piPat, sinPat, cosPat]

/-- `divide\s+by\s+zero|infinity\s*=|negative\s+square\s+root`. -/
def impossiblePat : Pat :=
  .alt (.seq (Pat.str ("divide")) (.seq (.plus isSpaceChar) (.seq (Pat.str ("by"))
         (.seq (.plus isSpaceChar) (Pat.str ("zero"))))))
    (.alt (.seq (Pat.str ("infinity")) (.seq (.star isSpaceChar) (Pat.str ("="))))
      (.seq (Pat.str ("negative")) (.seq (.plus isSpaceChar) (.seq (Pat.str ("square"))
        (.seq (.plus isSpaceChar) (Pat.str ("root")))))))

/-- `always\s+never|never\s+always|impossible\s+possible`. -/
def contradictionPat : Pat :=
  .alt (.seq (Pat.str ("always")) (.seq (.plus isSpaceChar) (Pat.str ("never"))))
    (.alt (.seq (Pat.str ("never")) (.seq (.plus isSpaceChar) (Pat.str ("always"))))
      (.seq (Pat.str ("impossible")) (.seq (.plus isSpaceChar) (Pat.str ("possible")))))

/-- The accumulated hallucination score before the final cap: one point per
matching `incorrect_facts` pattern (the source loops over the three
patterns, adding 1 for each that matches), one for an impossible statement,
one for a contradictory statement (`evaluator.py` lines 96-115). -/
def hallucination_raw (response_text : String) : Nat :=
  let s := response_text.data
  let score := incorrect_facts.countP (fun p => searchB p s)
  let score := if searchB impossiblePat s then score + 1 else score
  if searchB contradictionPat s then score + 1 else score

/-! ## Data model: problems, strategies, records -/

/-- A test problem (`test_queries.py`); immutable external data. -/
structure Problem where
  id : Nat
  problem : String
  expected_answer : String
  category : String
  grade_level : String
  difficulty : String
  deriving DecidableEq

/-- `MathTutorEvaluator.score_hallucination` (`evaluator.py` lines 94-117):
the accumulated score capped at 3.  The `problem_context` parameter is
accepted, as in the source, and not used. -/
def score_hallucination (response_text : String) (problem_context : Problem) : Nat :=
  min (hallucination_raw response_text) 3

/-- A two-part prompt as produced by every strategy. -/
structure Prompt where
  system : String
  user : String
  deriving DecidableEq

/-- A strategy: a name and the prompt-generation capability.  Generation
may raise (`Except.error` carries the exception message), matching the
trial boundary of `test_single_problem` which catches exceptions from
either step. -/
structure Strategy where
  strategy_name : String
  generate_prompt : String → Except String Prompt

/-- The model-serving collaborator: from the index of the call (how many
completions were requested before) and the prompt to either a completion
text or a raised exception's message.  Distinct calls may answer
differently, which is what the consistency probe measures. -/
def ApiClient : Type :=
  Nat → Prompt → Except String String

/-- The success-record payload of one trial (`evaluator.py` lines 131-144;
the `timestamp` field is real time and not modelled). -/
structure SuccessData where
  problem_id : Nat
  problem_text : String
  expected_answer : String
  strategy : String
  response : String
  extracted_answer : String
  accuracy_score : ℚ
  reasoning_score : Nat
  hallucination_score : Nat
  category : String
  difficulty : String
  consistency_score : Option ℚ
  deriving DecidableEq

/-- An evaluation record: the success shape or the failure shape
(`evaluator.py` lines 149-154; the failure dict has `problem_id`,
`strategy`, `error` and the unmodelled `timestamp`).  The two shapes are
distinguished in the source by the presence of the `"error"` key. -/
inductive Record where
  | success (d : SuccessData)
  | failure (problem_id : Nat) (strategy : String) (error : String)
  deriving DecidableEq

/-- `"error" in result` for a record. -/
def Record.isFailure : Record → Bool
  | .success _ => false
  | .failure _ _ _ => true

/-- `MathTutorEvaluator.test_single_problem` (`evaluator.py` lines
119-154).  The call counter is threaded: a completed model call (successful
or raising) advances it by one; a failure in prompt generation performs no
model call.  Any exception from either step becomes a failure record with
the exception's message; otherwise the response is extracted and scored
into a success record (with no consistency score yet). -/
def test_single_problem (api : ApiClient) (calls : Nat) (problem : Problem)
    (strategy : Strategy) : Record × Nat :=
  match strategy.generate_prompt problem.problem with
  | .error e => (.failure problem.id strategy.strategy_name e, calls)
  | .ok prompt =>
    match api calls prompt with
    | .error e => (.failure problem.id strategy.strategy_name e, calls + 1)
    | .ok response =>
      let final_answer := extract_final_answer response
      (.success {
          problem_id := problem.id
          problem_text := problem.problem
          expected_answer := problem.expected_answer
          strategy := strategy.strategy_name
          response := response
          extracted_answer := final_answer
          accuracy_score := score_accuracy problem.expected_answer final_answer
          reasoning_score := score_reasoning_clarity response
          hallucination_score := score_hallucination response problem
          category := problem.category
          difficulty := problem.difficulty
          consistency_score := none }, calls + 1)

/-- The loop body of `test_consistency`: run the single-problem trial
`n` times, collecting `result["extracted_answer"]` of the non-error
trials, in order. -/
def consistencyAnswers (api : ApiClient) (problem : Problem) (strategy : Strategy) :
    Nat → Nat → List String × Nat
  | 0, calls => ([], calls)
  | n + 1, calls =>
    let tr := test_single_problem api calls problem strategy
    let rest := consistencyAnswers api problem strategy n tr.2
    match tr.1 with
    | .success d => (d.extracted_answer :: rest.1, rest.2)
    | .failure _ _ _ => (rest.1, rest.2)

/-- `MathTutorEvaluator.test_consistency` (`evaluator.py` lines 156-170):
fewer than 2 collected answers score 0.0; otherwise
`1 - (len(set(responses)) - 1) / len(responses)` (`List.dedup` models
`set`; scores are exact rationals). -/
def test_consistency (api : ApiClient) (calls : Nat) (problem : Problem)
    (strategy : Strategy) (num_runs : Nat := 3) : ℚ × Nat :=
  let res := consistencyAnswers api problem strategy num_runs calls
  if res.1.length < 2 then (0, res.2)
  else (1 - ((res.1.dedup.length : ℚ) - 1) / (res.1.length : ℚ), res.2)

/-- One iteration of the inner loop of `run_full_evaluation` (`evaluator.py`
lines 186-195): run the trial; on success run the consistency probe with
2 repetitions and attach its score to the record. -/
def runTrial (api : ApiClient) (calls : Nat) (problem : Problem)
    (strategy : Strategy) : Record × Nat :=
  let tr := test_single_problem api calls problem strategy
  match tr.1 with
  | .failure pid sn e => (.failure pid sn e, tr.2)
  | .success d =>
    let pc := test_consistency api tr.2 problem strategy 2
    (.success { d with consistency_score := some pc.1 }, pc.2)

/-- The inner (strategy) loop of `run_full_evaluation`: one record appended
per strategy, in listed order. -/
def runStrategies (api : ApiClient) (problem : Problem) :
    List Strategy → Nat → List Record × Nat
  | [], calls => ([], calls)
  | s :: ss, calls =>
    let tr := runTrial api calls problem s
    let rest := runStrategies api problem ss tr.2
    (tr.1 :: rest.1, rest.2)

/-- The outer (problem) loop of `run_full_evaluation`. -/
def runProblems (api : ApiClient) :
    List Problem → List Strategy → Nat → List Record × Nat
  | [], _, calls => ([], calls)
  | p :: ps, ss, calls =>
    let rs := runStrategies api p ss calls
    let rest := runProblems api ps ss rs.2
    (rs.1 ++ rest.1, rest.2)

/-- `MathTutorEvaluator.run_full_evaluation` (`evaluator.py` lines
172-198): the full problem-major, strategy-minor sweep starting from an
empty record list and a fresh client.  The function is total — no trial
outcome can abort it. -/
def run_full_evaluation (api : ApiClient) (problems : List Problem)
    (strategies : List Strategy) : List Record :=
  (runProblems api problems strategies 0).1

/-! ## External collaborators: the test problems and a strategy -/

/-- Test problem 1 of `test_queries.py`. -/
def problem1 : Problem where
  id := 1
  problem := "Solve for x: 2x + 5 = 15"
  expected_answer := "x = 5"
  category := "Linear Algebra"
  grade_level := "8-9"
  difficulty := "medium"

/-- Test problem 2 of `test_queries.py`. -/
def problem2 : Problem where
  id := 2
  problem := "What is 15% of 240?"
  expected_answer := "36"
  category := "Percentage"
  grade_level := "6-7"
  difficulty := "easy"

/-- `test_queries.get_test_problems`. -/
def get_test_problems : List Problem :=
  [problem1, problem2]

/-- The system prompt shared by all strategies
(`PromptStrategy.format_system_prompt` in `prompt_strategies.py`). -/
def format_system_prompt : String :=
  "You are an expert mathematics tutor for students in Class 6-10. \nYou are patient, encouraging, and always provide clear step-by-step explanations.\nYour goal is to help students understand mathematical concepts, not just get answers.\nAlways show your working and explain each step clearly."

/-- `ZeroShotStrategy` of `prompt_strategies.py`: pure template
interpolation, never raises. -/
def ZeroShotStrategy : Strategy where
  strategy_name := "Zero-shot"
  generate_prompt := fun problem => .ok
    { system := format_system_prompt
      user := "\nSolve this math problem step by step:\n\nProblem: " ++ problem ++
        "\n\nPlease provide:\n1. The solution steps\n2. The final answer\n3. A brief explanation of the concept used\n\n" }

/-! ## Aggregator / Reporter -/

/-- The strategy name stored in a record. -/
def Record.strategyName : Record → String
  | .success d => d.strategy
  | .failure _ sn _ => sn

/-- Group the valid records by strategy name (`df.groupby('strategy')`);
keys are listed in first-appearance order (pandas sorts its group keys, an
ordering no verified claim depends on). -/
def groupByStrategy (valid : List Record) : List (String × List Record) :=
  (valid.map Record.strategyName).dedup.map
    (fun n => (n, valid.filter (fun r => Record.strategyName r = n)))

/-- The observable outcome of `generate_comparison_report`
(`evaluator.py` lines 200-240): the early return printing
`"No results to analyze. Run evaluation first."`, the early return
printing `"No valid results found."`, or the report built from the valid
records.  The persisted CSV artifacts and the printed mean/std tables are
derived from the grouped valid records carried by the `report` case; no
claim depends on their numeric layout. -/
inductive ReportOutcome where
  | noResults
  | noValidResults
  | report (valid : List Record) (byStrategy : List (String × List Record))
  deriving DecidableEq

/-- `MathTutorEvaluator.generate_comparison_report`.  The guard on an empty
result list comes first, the guard on zero valid (success) records second;
only past both guards is the DataFrame built and aggregated. -/
def generate_comparison_report (results : List Record) : ReportOutcome :=
  if results.isEmpty then .noResults
  else
    let valid_results := results.filter (fun r => !(Record.isFailure r))
    if valid_results.isEmpty then .noValidResults
    else .report valid_results (groupByStrategy valid_results)

/-- The weighted overall score of one success record
(`evaluator.py` lines 272-277): 40% accuracy, 30% reasoning (scaled from
1-5), 20% low hallucination (scaled from 0-3), 10% consistency.  On the
`run_full_evaluation` path every success record carries a consistency
score; `getD 0` stands in for the NaN a missing pandas column would
propagate and is never exercised by a verified claim. -/
def overall_score (d : SuccessData) : ℚ :=
  d.accuracy_score * 0.4 + ((d.reasoning_score : ℚ) / 5.0) * 0.3 +
    (1 - (d.hallucination_score : ℚ) / 3.0) * 0.2 + (d.consistency_score.getD 0) * 0.1

/-- The overall score of a record (only success records reach this point
in the source, as `valid_results` filtered the failures out). -/
def Record.overallScore : Record → ℚ
  | .success d => overall_score d
  | .failure _ _ _ => 0

/-- Mean overall score of a record group (`groupby('strategy').mean()`). -/
def meanOverall (rs : List Record) : ℚ :=
  (rs.map Record.overallScore).sum / (rs.length : ℚ)

/-- `MathTutorEvaluator.get_strategy_rankings` (`evaluator.py` lines
263-286).  `if not self.results: return None` guards only the
all-records-empty case.  Past it, `pd.DataFrame(valid_results)` on an empty
`valid_results` list is an empty frame with no columns, so the very next
line `df['accuracy_score']` raises `KeyError` — modelled by the
`Except.error` case.  Otherwise the mean overall score per strategy is
returned sorted descending (`sort_values(ascending=False)`). -/
def get_strategy_rankings (results : List Record) :
    Except String (Option (List (String × ℚ))) :=
  if results.isEmpty then .ok none
  else
    let valid_results := results.filter (fun r => !(Record.isFailure r))
    if valid_results.isEmpty then .error "KeyError: accuracy_score"
    else
      let means := (groupByStrategy valid_results).map (fun g => (g.1, meanOverall g.2))
      .ok (some (means.mergeSort (fun a b => decide (b.2 ≤ a.2))))

/-! ## Concrete collaborators and inputs used by witnesses and
counterexamples -/

/-- A model-serving collaborator that always answers the same completion. -/
def constApi (response : String) : ApiClient :=
  fun _ _ => .ok response

/-- A model-serving collaborator that fails by returning an error-shaped
string rather than raising, exactly as `LMStudioClient.get_completion`
does on a non-200 HTTP status (`main.py` line 70). -/
def errStringApi : ApiClient :=
  fun _ _ => .ok "Error: API returned status 500"

/-- A model-serving collaborator whose calls all raise (for example a
connection timeout caught and stringified at the trial boundary). -/
def raisingApi : ApiClient :=
  fun _ _ => .error "Connection failed - timeout"

/-- A model-serving collaborator answering a different extracted answer on
every call: call `k` answers `"Answer: <k>"`. -/
def distinctApi : ApiClient :=
  fun k _ => .ok ("Answer: " ++ toString k)

/-- A failure record as `test_single_problem` produces it when the model
call raises. -/
def failRecord : Record :=
  .failure 1 "Zero-shot" "Connection failed - timeout"

/-- The normalization exactly as claim C5 words it: keep only
alphanumerics, `.`, `/`, `=` and whitespace (the source's `\w` also keeps
the underscore, which this claim-side definition drops). -/
def claimNormalize (s : String) : List Char :=
  (s.data.map Char.toLower).filter (fun c => c.isAlphanum || c = '.' || c = '/' || c = '=' || isSpaceChar c)

/-- The accuracy condition of the amended claim C5, with the source's
normalization (`pyNormalize`, word characters include the underscore):
substring containment either way, or equal first numeric runs. -/
def accuracyAmendedCond (expected actual : String) : Bool :=
  let ec := pyNormalize expected
  let ac := pyNormalize actual
  substringOf ec ac || substringOf ac ec ||
    (match firstRun isDotDigit ec, firstRun isDotDigit ac with
     | some en, some an => en = an
     | _, _ => false)

/-- A response on which all three incorrect-fact patterns, the
impossible-statement pattern and the contradiction pattern match (it
contains the literal double-encoded characters the fact patterns
require). -/
def overloadedResponse : String :=
  "œÄ = 99 sin 30¬ = 0.9 cos 90¬ = 5 divide by zero always never"

/-- Shape property of a group pattern: every successful match consumes at
least its first input character, that character satisfies `cond`, and the
continuation receives a drop of the remaining tail.  Holds for the group
bodies of extraction patterns 2-5, whose leading tokens are `+`-repeated
character classes or literals. -/
def GrpHead (grp : Pat) (cond : Char → Bool) : Prop :=
  ∀ (s : List Char) (k : List Char → Option (List Char)) (r : List Char),
    mmatch grp s k = some r →
      ∃ c t, s = c :: t ∧ cond c = true ∧ ∃ m, m ≤ t.length ∧ k (t.drop m) = some r

/-! ## Claim C10 -/

/-- C10: `score_hallucination` does not depend on its `problem_context`
argument — for every response text and any two context values the result
is identical; it is a function of the response text alone. -/
theorem c10_hallucination_ignores_context (response_text : String)
    (c₁ c₂ : Problem) :
    score_hallucination response_text c₁ = score_hallucination response_text c₂ :=
  rfl

/-! ## Claim C2 -/

/-- C2 (failing-input evaluation): on a nonempty record sequence with zero
success records, `generate_comparison_report` does reach its explicit
"No valid results found." outcome, but `get_strategy_rankings` — whose
only guard covers the no-records-at-all case — builds an empty DataFrame
and raises `KeyError` at `df['accuracy_score']`, contradicting the claim
that both terminate normally.  On the empty sequence both terminate
normally. -/
theorem c2_rankings_keyerror_on_all_failure :
    generate_comparison_report [failRecord] = .noValidResults
    ∧ get_strategy_rankings [failRecord] = .error "KeyError: accuracy_score"
    ∧ generate_comparison_report ([] : List Record) = .noResults
    ∧ get_strategy_rankings ([] : List Record) = .ok none :=
  ⟨rfl, rfl, rfl, rfl⟩

/-! ## Claim C3 -/

/-- C3 (failing-input evaluation): when the model-serving collaborator
fails by returning an error-shaped string (here
`"Error: API returned status 500"`, exactly what
`LMStudioClient.get_completion` returns on a non-200 status) instead of
raising, `test_single_problem` does NOT produce a failure record: no
exception crosses the trial boundary, so the error text is scored like a
normal completion and a success record is produced, with the extracted
answer `"500"` pulled out of the error message. -/
theorem c3_error_string_becomes_success_record :
    (test_single_problem errStringApi 0 problem1 ZeroShotStrategy).1 =
      .success {
        problem_id := 1
        problem_text := "Solve for x: 2x + 5 = 15"
        expected_answer := "x = 5"
        strategy := "Zero-shot"
        response := "Error: API returned status 500"
        extracted_answer := "500"
        accuracy_score := 0
        reasoning_score := 1
        hallucination_score := 0
        category := "Linear Algebra"
        difficulty := "medium"
        consistency_score := none }
    ∧ Record.isFailure (test_single_problem errStringApi 0 problem1 ZeroShotStrategy).1 = false := by
  constructor <;> decide

/-! ## Claim C6 -/

/-- C6 counterexample: the claim says each of the three checks contributes
at most 1, for an accumulated score of at most 3 before the cap.  But the
first check is a loop over the three `incorrect_facts` patterns, each
adding 1, so on a response matching all three fact patterns plus the
impossible-statement and contradiction patterns the accumulated score is
5 > 3. -/
theorem c6_counterexample :
    hallucination_raw overloadedResponse = 5
    ∧ ¬ hallucination_raw overloadedResponse ≤ 3 := by
  constructor <;> decide

/-- C6 amended: the known-false-facts check is a loop over the three
`incorrect_facts` patterns contributing 1 each (at most 3 in total), the
impossible-statement and self-contradiction checks contribute at most 1
each, so the accumulated score is at most 5 before the final cap, and the
returned score `min(accumulated, 3)` is at most 3. -/
theorem c6_hallucination_accumulation_bounds (response_text : String)
    (ctx : Problem) :
    incorrect_facts.countP (fun p => searchB p response_text.data) ≤ 3
    ∧ hallucination_raw response_text ≤ 5
    ∧ score_hallucination response_text ctx = min (hallucination_raw response_text) 3
    ∧ score_hallucination response_text ctx ≤ 3 := by
  have hcount : incorrect_facts.countP (fun p => searchB p response_text.data) ≤ 3 := by
    have h := List.countP_le_length (l := incorrect_facts)
      (p := fun p => searchB p response_text.data)
    simpa [incorrect_facts] using h
  refine ⟨hcount, ?_, rfl, Nat.min_le_right _ 3⟩
  unfold hallucination_raw
  dsimp only
  split <;> split <;> omega

/-! ## Claim C7 -/

/-- C7 (failing-input evaluation): because the source file stores the
degree sign double-encoded, the incorrect-sine pattern literally reads
`sin\s*30¬∞?\s*=\s*...`, demanding a mandatory `¬` after `30`.  It
therefore never matches the response `"sin 30° = 0.9"` (nor does any
other hallucination pattern), and `score_hallucination` returns 0, not
the claimed ≥ 1.  The code's own comment on the pattern line — the
double-encoded `# sin 30° should be 0.5` — shows the intended pattern,
so this is an encoding slip in the code. -/
theorem c7_sin_false_fact_pattern_dead :
    score_hallucination ("sin 30° = 0.9") problem1 = 0
    ∧ searchB sinPat ("sin 30° = 0.9").data = false := by
  constructor <;> decide

/-! ## Claim C5 -/

/-- C5 counterexample: under the claim's normalization (which drops the
underscore) the expected string `"x_1"` normalizes to `"x1"`, a substring
of `"x12"`, so the claim demands a score of exactly 1.0 — but the code's
normalization keeps the underscore (`\w`), the substring test fails, and
the first numeric runs `"1"` and `"12"` differ, so `score_accuracy`
returns 0.0. -/
theorem c5_counterexample :
    substringOf (claimNormalize ("x_1")) (claimNormalize ("x12")) = true
    ∧ score_accuracy ("x_1") ("x12") = 0 := by
  constructor <;> decide

/-- C5 amended: with the normalization corrected to keep word characters
(alphanumerics and the underscore) as the source's `\w` does,
`score_accuracy` returns exactly 1.0 when either normalized string is a
substring of the other or the first numeric runs exist and coincide, and
exactly 0.0 otherwise — in particular the result is always in {0.0, 1.0}. -/
theorem c5_score_accuracy_binary (expected actual : String) :
    (score_accuracy expected actual = 0 ∨ score_accuracy expected actual = 1)
    ∧ (score_accuracy expected actual = 1 ↔ accuracyAmendedCond expected actual = true) := by
  by_cases h : (substringOf (pyNormalize expected) (pyNormalize actual)
      || substringOf (pyNormalize actual) (pyNormalize expected)) = true
  · simp [score_accuracy, accuracyAmendedCond, h]
  · rw [Bool.not_eq_true] at h
    rcases h1 : firstRun isDotDigit (pyNormalize expected) with _ | en <;>
      rcases h2 : firstRun isDotDigit (pyNormalize actual) with _ | an <;>
        simp [score_accuracy, accuracyAmendedCond, h, h1, h2]
    by_cases h3 : en = an <;> simp [h3]

/-! ## Claim C9 -/

/-- C9: every score stays within its declared closed interval regardless
of scorer input: `score_reasoning_clarity` returns an integer in [1,5],
`score_hallucination` an integer in [0,3] (the lower bound holds by the
ℕ codomain), and `test_consistency` a value in [0.0, 1.0] for every
collaborator, counter, problem, strategy and run count. -/
theorem c9_score_bounds :
    (∀ s : String, 1 ≤ score_reasoning_clarity s ∧ score_reasoning_clarity s ≤ 5)
    ∧ (∀ (s : String) (ctx : Problem), score_hallucination s ctx ≤ 3)
    ∧ (∀ (api : ApiClient) (calls : Nat) (p : Problem) (st : Strategy) (n : Nat),
        0 ≤ (test_consistency api calls p st n).1
        ∧ (test_consistency api calls p st n).1 ≤ 1) := by
  refine ⟨fun s => ?_, fun s ctx => Nat.min_le_right _ 3, fun api calls p st n => ?_⟩
  · unfold score_reasoning_clarity
    dsimp only
    refine ⟨Nat.le_min.mpr ⟨?_, by omega⟩, Nat.min_le_right _ 5⟩
    split <;> split <;> split <;> split <;> omega
  · unfold test_consistency
    dsimp only
    split
    · exact ⟨le_refl 0, by norm_num⟩
    · rename_i h
      have hlen : 2 ≤ (consistencyAnswers api p st n calls).1.length := Nat.not_lt.mp h
      have hdpos : 1 ≤ (consistencyAnswers api p st n calls).1.dedup.length := by
        have hne : (consistencyAnswers api p st n calls).1.dedup ≠ [] := by
          rw [Ne, List.dedup_eq_nil]
          intro hnil
          rw [hnil] at hlen
          simp at hlen
        exact List.length_pos.mpr hne
      have hdle : (consistencyAnswers api p st n calls).1.dedup.length ≤
          (consistencyAnswers api p st n calls).1.length :=
        ((consistencyAnswers api p st n calls).1.dedup_sublist).length_le
      have hn : (0:ℚ) < ((consistencyAnswers api p st n calls).1.length : ℚ) := by
        exact_mod_cast lt_of_lt_of_le (by norm_num) hlen
      have hq1 : ((consistencyAnswers api p st n calls).1.dedup.length : ℚ) ≤
          ((consistencyAnswers api p st n calls).1.length : ℚ) := by exact_mod_cast hdle
      have hq2 : (1:ℚ) ≤ ((consistencyAnswers api p st n calls).1.dedup.length : ℚ) := by
        exact_mod_cast hdpos
      constructor
      · have hle1 : (((consistencyAnswers api p st n calls).1.dedup.length : ℚ) - 1) /
            ((consistencyAnswers api p st n calls).1.length : ℚ) ≤ 1 := by
          rw [div_le_one hn]
          linarith
        linarith
      · have hge0 : 0 ≤ (((consistencyAnswers api p st n calls).1.dedup.length : ℚ) - 1) /
            ((consistencyAnswers api p st n calls).1.length : ℚ) :=
          div_nonneg (by linarith) (le_of_lt hn)
        linarith

/-! ## Claim C8 -/

/-- Helper: deduplicating a nonempty constant list leaves one element. -/
theorem dedup_replicate_pos {α : Type _} [DecidableEq α] (a : α) :
    ∀ n : Nat, 1 ≤ n → (List.replicate n a).dedup = [a] := by
  intro n
  induction n with
  | zero => intro h; exact absurd h (by omega)
  | succ m ih =>
    intro _
    rcases Nat.eq_zero_or_pos m with hm | hm
    · subst hm
      simp
    · rw [List.replicate_succ,
        List.dedup_cons_of_mem (List.mem_replicate.mpr ⟨Nat.pos_iff_ne_zero.mp hm, rfl⟩)]
      exact ih hm

/-- Helper: when prompt generation succeeds and every one of the `n` model
calls succeeds, the consistency loop collects exactly the extracted answers
of the `n` responses, in call order, advancing the call counter by `n`. -/
theorem consistencyAnswers_all_ok (api : ApiClient) (p : Problem) (st : Strategy)
    (pr : Prompt) (hgen : st.generate_prompt p.problem = .ok pr) :
    ∀ (n calls : Nat) (resp : Nat → String),
      (∀ k, k < n → api (calls + k) pr = .ok (resp k)) →
      consistencyAnswers api p st n calls =
        ((List.range n).map fun k => extract_final_answer (resp k), calls + n) := by
  intro n
  induction n with
  | zero => intro calls resp _; simp [consistencyAnswers]
  | succ m ih =>
    intro calls resp hapi
    have h0 : api calls pr = .ok (resp 0) := hapi 0 (Nat.succ_pos m)
    have hstep : test_single_problem api calls p st =
        (.success {
            problem_id := p.id
            problem_text := p.problem
            expected_answer := p.expected_answer
            strategy := st.strategy_name
            response := resp 0
            extracted_answer := extract_final_answer (resp 0)
            accuracy_score := score_accuracy p.expected_answer (extract_final_answer (resp 0))
            reasoning_score := score_reasoning_clarity (resp 0)
            hallucination_score := score_hallucination (resp 0) p
            category := p.category
            difficulty := p.difficulty
            consistency_score := none }, calls + 1) := by
      unfold test_single_problem
      rw [hgen]
      dsimp only
      rw [h0]
    have hrest := ih (calls + 1) (fun k => resp (k + 1)) (fun k hk => by
      rw [Nat.add_assoc, Nat.add_comm 1 k]
      exact hapi (k + 1) (Nat.succ_lt_succ hk))
    show (let tr := test_single_problem api calls p st
          let rest := consistencyAnswers api p st m tr.2
          match tr.1 with
          | .success d => (d.extracted_answer :: rest.1, rest.2)
          | .failure _ _ _ => (rest.1, rest.2)) = _
    rw [hstep]
    dsimp only
    rw [hrest]
    refine Prod.ext ?_ ?_
    · show extract_final_answer (resp 0) ::
        ((List.range m).map fun k => extract_final_answer (resp (k + 1))) = _
      rw [List.range_succ_eq_map, List.map_cons, List.map_map]
      rfl
    · show calls + 1 + m = calls + (m + 1)
      omega

/-- C8: `test_consistency` returns exactly 0.0 whenever fewer than 2 of
its trials are non-error; otherwise it returns
`1 - (distinct_answer_count - 1) / successful_trial_count` over the
extracted answers of the non-error trials; in particular (for a probe of
`run_count ≥ 2` trials, the regime its guard admits), if all `run_count`
trials succeed with the identical extracted answer it returns exactly
1.0, and if all succeed with pairwise-distinct answers it returns exactly
`1/run_count`. -/
theorem c8_test_consistency_formula (api : ApiClient) (calls : Nat) (p : Problem)
    (st : Strategy) (n : Nat) :
    ((consistencyAnswers api p st n calls).1.length < 2 →
      (test_consistency api calls p st n).1 = 0)
    ∧ (2 ≤ (consistencyAnswers api p st n calls).1.length →
      (test_consistency api calls p st n).1 =
        1 - (((consistencyAnswers api p st n calls).1.dedup.length : ℚ) - 1) /
          ((consistencyAnswers api p st n calls).1.length : ℚ))
    ∧ (∀ (pr : Prompt) (resp : Nat → String),
        st.generate_prompt p.problem = .ok pr →
        (∀ k, k < n → api (calls + k) pr = .ok (resp k)) →
        2 ≤ n →
        ((∀ k, k < n → extract_final_answer (resp k) = extract_final_answer (resp 0)) →
          (test_consistency api calls p st n).1 = 1)
        ∧ ((∀ k₁ k₂, k₁ < n → k₂ < n → k₁ ≠ k₂ →
            extract_final_answer (resp k₁) ≠ extract_final_answer (resp k₂)) →
          (test_consistency api calls p st n).1 = 1 / (n : ℚ))) := by
  refine ⟨fun h => ?_, fun h => ?_, fun pr resp hgen hapi hn2 => ⟨fun hsame => ?_, fun hdist => ?_⟩⟩
  · unfold test_consistency
    dsimp only
    rw [if_pos h]
  · unfold test_consistency
    dsimp only
    rw [if_neg (Nat.not_lt.mpr h)]
  · have hlist := consistencyAnswers_all_ok api p st pr hgen n calls resp hapi
    have hrepl : ((List.range n).map fun k => extract_final_answer (resp k)) =
        List.replicate n (extract_final_answer (resp 0)) := by
      apply List.eq_replicate_iff.mpr
      refine ⟨by simp, fun b hb => ?_⟩
      obtain ⟨k, hk, rfl⟩ := List.mem_map.mp hb
      exact hsame k (List.mem_range.mp hk)
    unfold test_consistency
    dsimp only
    rw [hlist]
    dsimp only
    rw [hrepl, dedup_replicate_pos _ n (by omega)]
    rw [if_neg (by simp [List.length_replicate]; omega)]
    simp
  · have hlist := consistencyAnswers_all_ok api p st pr hgen n calls resp hapi
    have hnodup : (((List.range n).map fun k => extract_final_answer (resp k))).Nodup := by
      refine List.Nodup.map_on ?_ (List.nodup_range n)
      intro x hx y hy hfxy
      by_contra hne
      exact hdist x y (List.mem_range.mp hx) (List.mem_range.mp hy) hne hfxy
    have hded := List.dedup_eq_self.mpr hnodup
    have hnq : ((n : ℚ)) ≠ 0 := by
      have : (0:ℚ) < (n : ℚ) := by exact_mod_cast lt_of_lt_of_le (by norm_num) hn2
      exact ne_of_gt this
    unfold test_consistency
    dsimp only
    rw [hlist]
    dsimp only
    rw [hded]
    rw [if_neg (by simp; omega)]
    simp only [List.length_map, List.length_range]
    field_simp

/-- C8 witness: with a collaborator that answers `"Answer: 5"` on every
call, a 2-run probe scores exactly 1.0; with a collaborator answering a
different extracted answer on each call, it scores exactly 1/2. -/
theorem c8_witness :
    (test_consistency (constApi ("Answer: 5")) 0 problem1 ZeroShotStrategy 2).1 = 1
    ∧ (test_consistency distinctApi 0 problem1 ZeroShotStrategy 2).1 = 1 / (2 : ℚ) := by
  constructor
  · exact ((c8_test_consistency_formula (constApi ("Answer: 5")) 0 problem1
      ZeroShotStrategy 2).2.2 _ (fun _ => "Answer: 5") rfl (fun k _ => rfl)
      (by norm_num)).1 (fun k _ => rfl)
  · refine Eq.trans (((c8_test_consistency_formula distinctApi 0 problem1
      ZeroShotStrategy 2).2.2 _ (fun k => "Answer: " ++ toString k) rfl
      (fun k hk => ?_) (by norm_num)).2 (fun k₁ k₂ h₁ h₂ hne => ?_)) (by norm_num)
    · interval_cases k <;> rfl
    · interval_cases k₁ <;> interval_cases k₂ <;> first | exact absurd rfl hne | decide

/-! ## Claim C4: engine decomposition lemmas

The matcher only ever consumes characters from the front of its input, so
a successful run invokes its continuation on a drop of the input; these
lemmas make that explicit, and identify the first character consumed by
the group of each extraction pattern. -/

/-- A successful literal match returns a drop of the input. -/
theorem litsMatch_drop :
    ∀ (cs s s' : List Char), litsMatch cs s = some s' →
      ∃ n, n ≤ s.length ∧ s' = s.drop n := by
  intro cs
  induction cs with
  | nil =>
    intro s s' h
    exact ⟨0, Nat.zero_le _, by simpa [litsMatch] using h.symm⟩
  | cons c cs ih =>
    intro s s' h
    cases s with
    | nil => simp [litsMatch] at h
    | cons d t =>
      rw [litsMatch] at h
      by_cases hc : charIEq c d
      · rw [if_pos hc] at h
        obtain ⟨n, hn, rfl⟩ := ih t s' h
        exact ⟨n + 1, by simpa using hn, by simp⟩
      · rw [if_neg hc] at h
        exact absurd h (by simp)

/-- A successful greedy-star run invokes its continuation on a drop of
the input. -/
theorem starRun_split (f : Char → Bool) (k : List Char → Option (List Char)) :
    ∀ (s r : List Char), starRun f k s = some r →
      ∃ n, n ≤ s.length ∧ k (s.drop n) = some r := by
  intro s
  induction s with
  | nil => intro r h; exact ⟨0, Nat.le_refl 0, h⟩
  | cons c t ih =>
    intro r h
    rw [starRun] at h
    by_cases hc : f c
    · rw [if_pos hc] at h
      cases hrec : starRun f k t with
      | some r' =>
        rw [hrec] at h
        obtain ⟨n, hn, hk⟩ := ih r' hrec
        cases h
        exact ⟨n + 1, by simpa using hn, hk⟩
      | none =>
        rw [hrec] at h
        exact ⟨0, Nat.zero_le _, h⟩
    · rw [if_neg hc] at h
      exact ⟨0, Nat.zero_le _, h⟩

/-- A successful lazy-plus run invokes its continuation on a drop of the
input. -/
theorem lazyPlusRun_split (f : Char → Bool) (k : List Char → Option (List Char)) :
    ∀ (s r : List Char), lazyPlusRun f k s = some r →
      ∃ n, n ≤ s.length ∧ k (s.drop n) = some r := by
  intro s
  induction s with
  | nil => intro r h; simp [lazyPlusRun] at h
  | cons c t ih =>
    intro r h
    rw [lazyPlusRun] at h
    by_cases hc : f c
    · rw [if_pos hc] at h
      cases hk : k t with
      | some r' =>
        rw [hk] at h
        cases h
        exact ⟨1, by simp, hk⟩
      | none =>
        rw [hk] at h
        obtain ⟨n, hn, hk'⟩ := ih r h
        exact ⟨n + 1, by simpa using hn, hk'⟩
    · rw [if_neg hc] at h
      exact absurd h (by simp)

/-- Every successful match invokes its continuation on a drop of the
input. -/
theorem mmatch_split :
    ∀ (p : Pat) (s : List Char) (k : List Char → Option (List Char)) (r : List Char),
      mmatch p s k = some r → ∃ n, n ≤ s.length ∧ k (s.drop n) = some r := by
  intro p
  induction p with
  | eps => intro s k r h; exact ⟨0, Nat.zero_le _, h⟩
  | lits cs =>
    intro s k r h
    rw [mmatch] at h
    cases hl : litsMatch cs s with
    | some s' =>
      rw [hl] at h
      obtain ⟨n, hn, rfl⟩ := litsMatch_drop cs s s' hl
      exact ⟨n, hn, h⟩
    | none => rw [hl] at h; exact absurd h (by simp)
  | cls f =>
    intro s k r h
    cases s with
    | nil => rw [mmatch] at h; exact absurd h (by simp)
    | cons c t =>
      rw [mmatch] at h
      by_cases hc : f c
      · rw [if_pos hc] at h
        exact ⟨1, by simp, h⟩
      · rw [if_neg hc] at h
        exact absurd h (by simp)
  | seq p q ihp ihq =>
    intro s k r h
    rw [mmatch] at h
    obtain ⟨n₁, hn₁, h₁⟩ := ihp s _ r h
    obtain ⟨n₂, hn₂, h₂⟩ := ihq _ _ r h₁
    rw [List.drop_drop] at h₂
    refine ⟨n₁ + n₂, ?_, h₂⟩
    have := List.length_drop n₁ s
    omega
  | alt p q ihp ihq =>
    intro s k r h
    rw [mmatch] at h
    cases hp : mmatch p s k with
    | some r' => rw [hp] at h; cases h; exact ihp s k r hp
    | none => rw [hp] at h; exact ihq s k r h
  | opt p ihp =>
    intro s k r h
    rw [mmatch] at h
    cases hp : mmatch p s k with
    | some r' => rw [hp] at h; cases h; exact ihp s k r hp
    | none => rw [hp] at h; exact ⟨0, Nat.zero_le _, h⟩
  | star f =>
    intro s k r h
    exact starRun_split f k s r h
  | plus f =>
    intro s k r h
    cases s with
    | nil => rw [mmatch] at h; exact absurd h (by simp)
    | cons c t =>
      rw [mmatch] at h
      by_cases hc : f c
      · rw [if_pos hc] at h
        obtain ⟨n, hn, hk⟩ := starRun_split f k t r h
        exact ⟨n + 1, by simpa using hn, hk⟩
      · rw [if_neg hc] at h
        exact absurd h (by simp)
  | lazyPlus f =>
    intro s k r h
    exact lazyPlusRun_split f k s r h
  | eol =>
    intro s k r h
    cases s with
    | nil => rw [mmatch] at h; exact ⟨0, Nat.zero_le _, h⟩
    | cons c t => rw [mmatch] at h; exact absurd h (by simp)
  | nla p ihp =>
    intro s k r h
    rw [mmatch] at h
    cases hp : mmatch p s some with
    | some r' => rw [hp] at h; exact absurd h (by simp)
    | none => rw [hp] at h; exact ⟨0, Nat.zero_le _, h⟩

/-- The group body `class+` consumes its first character, which is in the
class. -/
theorem grpHead_plus (f : Char → Bool) : GrpHead (.plus f) f := by
  intro s k r h
  cases s with
  | nil => rw [mmatch] at h; exact absurd h (by simp)
  | cons c t =>
    rw [mmatch] at h
    by_cases hc : f c
    · rw [if_pos hc] at h
      obtain ⟨m, hm, hk⟩ := starRun_split f k t r h
      exact ⟨c, t, rfl, hc, m, hm, hk⟩
    · rw [if_neg hc] at h
      exact absurd h (by simp)

/-- A sequence whose head has the shape property has it too. -/
theorem grpHead_seq (p q : Pat) (cond : Char → Bool) (hp : GrpHead p cond) :
    GrpHead (.seq p q) cond := by
  intro s k r h
  rw [mmatch] at h
  obtain ⟨c, t, rfl, hc, m, hm, hk⟩ := hp s _ r h
  obtain ⟨n₂, hn₂, hk₂⟩ := mmatch_split q _ k r hk
  rw [List.drop_drop] at hk₂
  refine ⟨c, t, rfl, hc, m + n₂, ?_, hk₂⟩
  have := List.length_drop m t
  omega

/-- A nonempty literal consumes its first character, which matches the
literal's first character case-insensitively. -/
theorem grpHead_lits (c : Char) (cs : List Char) :
    GrpHead (.lits (c :: cs)) (charIEq c) := by
  intro s k r h
  cases s with
  | nil => rw [mmatch] at h; simp [litsMatch] at h
  | cons d t =>
    rw [mmatch] at h
    rw [litsMatch] at h
    by_cases hc : charIEq c d
    · rw [if_pos hc] at h
      cases hl : litsMatch cs t with
      | some s' =>
        rw [hl] at h
        obtain ⟨n, hn, rfl⟩ := litsMatch_drop cs t s' hl
        exact ⟨d, t, rfl, hc, n, hn, h⟩
      | none => rw [hl] at h; exact absurd h (by simp)
    · rw [if_neg hc] at h
      exact absurd h (by simp)

/-- The literal `"x"`, as used at the head of pattern 5's group. -/
theorem grpHead_str_x : GrpHead (Pat.str ("x")) (charIEq 'x') := by
  have hx : Pat.str ("x") = .lits ('x' :: []) := rfl
  rw [hx]
  exact grpHead_lits 'x' []

/-- The sub-pattern `x\s*=\s*[0-9]+` starts with the literal `x`. -/
theorem grpHead_xEqNum : GrpHead xEqNum (charIEq 'x') := by
  unfold xEqNum
  exact grpHead_seq _ _ _ grpHead_str_x

/-- For a one-group pattern with empty suffix whose group has the shape
property, the captured text starts with a character satisfying the
group's head condition. -/
theorem matchCapAt_head (P : CPat) (cond : Char → Bool) (hsuf : P.suf = .eps)
    (hg : GrpHead P.grp cond) :
    ∀ (s g : List Char), matchCapAt P s = some g →
      ∃ c t, g = c :: t ∧ cond c = true := by
  intro s g h
  unfold matchCapAt at h
  rw [hsuf] at h
  obtain ⟨n₀, hn₀, h₁⟩ := mmatch_split P.pre s _ g h
  obtain ⟨c, t, hs1, hc, m, hm, hk⟩ := hg (s.drop n₀) _ g h₁
  rw [mmatch] at hk
  have hg' : g = (s.drop n₀).take ((s.drop n₀).length - (t.drop m).length) :=
    (Option.some.inj hk).symm
  rw [hs1] at hg'
  rw [List.length_drop] at hg'
  have harith : (c :: t).length - (t.length - m) = m + 1 := by
    simp only [List.length_cons]
    omega
  rw [harith] at hg'
  rw [List.take_succ_cons] at hg'
  exact ⟨c, t.take m, hg', hc⟩

/-- Pattern 2's capture starts with a `[0-9.+-]` character. -/
theorem pat2_head (s g : List Char) (h : matchCapAt pat2 s = some g) :
    ∃ c t, g = c :: t ∧ isNumSign c = true :=
  matchCapAt_head pat2 isNumSign rfl (grpHead_plus isNumSign) s g h

/-- Pattern 3's capture starts with a `[0-9.]` character. -/
theorem pat3_head (s g : List Char) (h : matchCapAt pat3 s = some g) :
    ∃ c t, g = c :: t ∧ isDotDigit c = true :=
  matchCapAt_head pat3 isDotDigit rfl
    (grpHead_seq _ _ _ (grpHead_plus isDotDigit)) s g h

/-- Pattern 4's capture starts with a digit. -/
theorem pat4_head (s g : List Char) (h : matchCapAt pat4 s = some g) :
    ∃ c t, g = c :: t ∧ isDigitChar c = true :=
  matchCapAt_head pat4 isDigitChar rfl
    (grpHead_seq _ _ _ (grpHead_plus isDigitChar)) s g h

/-- Pattern 5's capture starts with an `x` (either case). -/
theorem pat5_head (s g : List Char) (h : matchCapAt pat5 s = some g) :
    ∃ c t, g = c :: t ∧ charIEq 'x' c = true :=
  matchCapAt_head pat5 (charIEq 'x') rfl
    (grpHead_seq _ _ _ grpHead_xEqNum) s g h

/-- Enumerate the six characters `isSpaceChar` accepts. -/
theorem isSpaceChar_cases {c : Char} (h : isSpaceChar c = true) :
    c = ' ' ∨ c = '\t' ∨ c = '\n' ∨ c = '\r' ∨ c = '\x0b' ∨ c = '\x0c' := by
  unfold isSpaceChar at h
  simp only [Bool.or_eq_true, decide_eq_true_eq] at h
  tauto

/-- A `[0-9.+-]` character is not whitespace. -/
theorem numSign_not_space {c : Char} (h : isNumSign c = true) : isSpaceChar c = false := by
  by_contra hs
  rw [Bool.not_eq_false] at hs
  rcases isSpaceChar_cases hs with rfl | rfl | rfl | rfl | rfl | rfl <;>
    exact absurd h (by decide)

/-- A `[0-9.]` character is not whitespace. -/
theorem dotDigit_not_space {c : Char} (h : isDotDigit c = true) : isSpaceChar c = false := by
  by_contra hs
  rw [Bool.not_eq_false] at hs
  rcases isSpaceChar_cases hs with rfl | rfl | rfl | rfl | rfl | rfl <;>
    exact absurd h (by decide)

/-- A digit is not whitespace. -/
theorem digit_not_space {c : Char} (h : isDigitChar c = true) : isSpaceChar c = false := by
  by_contra hs
  rw [Bool.not_eq_false] at hs
  rcases isSpaceChar_cases hs with rfl | rfl | rfl | rfl | rfl | rfl <;>
    exact absurd h (by decide)

/-- A character equal to `x` up to case is not whitespace. -/
theorem xchar_not_space {c : Char} (h : charIEq 'x' c = true) : isSpaceChar c = false := by
  by_contra hs
  rw [Bool.not_eq_false] at hs
  rcases isSpaceChar_cases hs with rfl | rfl | rfl | rfl | rfl | rfl <;>
    exact absurd h (by decide)

/-- A character that fails the predicate survives `dropWhile`. -/
theorem mem_dropWhile_of_not {p : Char → Bool} :
    ∀ {l : List Char} {x : Char}, x ∈ l → p x = false → x ∈ l.dropWhile p := by
  intro l
  induction l with
  | nil => intro x hx _; cases hx
  | cons a t ih =>
    intro x hx hpx
    rw [List.dropWhile_cons]
    by_cases hpa : p a
    · rw [if_pos hpa]
      rcases List.mem_cons.mp hx with rfl | hxt
      · exact absurd hpa (by simp [hpx])
      · exact ih hxt hpx
    · rw [if_neg hpa]
      exact hx

/-- A list containing a non-whitespace character strips to a nonempty
list (Python `strip()` never erases such a character). -/
theorem pyStripList_ne_nil {l : List Char}
    (h : ∃ x ∈ l, isSpaceChar x = false) : pyStripList l ≠ [] := by
  unfold pyStripList
  intro hnil
  obtain ⟨x, hx, hpx⟩ := h
  have h1 : x ∈ l.dropWhile isSpaceChar := mem_dropWhile_of_not hx hpx
  have h2 : x ∈ (l.dropWhile isSpaceChar).reverse := List.mem_reverse.mpr h1
  have h3 : x ∈ (l.dropWhile isSpaceChar).reverse.dropWhile isSpaceChar :=
    mem_dropWhile_of_not h2 hpx
  rw [List.reverse_eq_nil_iff] at hnil
  rw [hnil] at h3
  cases h3

/-- A successful capture search matches the pattern at some suffix. -/
theorem searchCapAux_some :
    ∀ (P : CPat) (l g : List Char), searchCapAux P l = some g →
      ∃ t, matchCapAt P t = some g := by
  intro P l
  induction l with
  | nil => intro g h; rw [searchCapAux] at h; exact ⟨[], h⟩
  | cons c s ih =>
    intro g h
    rw [searchCapAux] at h
    cases hm : matchCapAt P (c :: s) with
    | some g' => rw [hm] at h; cases h; exact ⟨c :: s, hm⟩
    | none => rw [hm] at h; exact ih g h

/-- If no pattern of the list matches, the pattern loop yields nothing. -/
theorem tryPatterns_none :
    ∀ (ps : List CPat) (l : List Char),
      (∀ p ∈ ps, searchCapAux p l = none) → tryPatterns ps l = none := by
  intro ps l
  induction ps with
  | nil => intro _; rfl
  | cons p ps ih =>
    intro h
    rw [tryPatterns, h p (List.mem_cons_self p ps)]
    exact ih (fun q hq => h q (List.mem_cons_of_mem p hq))

/-- If no line contains a digit, the reverse line scan yields nothing. -/
theorem lastDigitLine_none :
    ∀ (ls : List (List Char)),
      (∀ line ∈ ls, containsDigit line = false) → lastDigitLine ls = none := by
  intro ls
  induction ls with
  | nil => intro _; rfl
  | cons a t ih =>
    intro h
    rw [lastDigitLine, ih (fun q hq => h q (List.mem_cons_of_mem a hq)),
      h a (List.mem_cons_self a t)]
    rfl

/-- The line returned by the reverse line scan contains a digit. -/
theorem lastDigitLine_some :
    ∀ (ls : List (List Char)) (l : List Char),
      lastDigitLine ls = some l → containsDigit l = true := by
  intro ls
  induction ls with
  | nil => intro l h; rw [lastDigitLine] at h; exact absurd h (by simp)
  | cons a t ih =>
    intro l h
    rw [lastDigitLine] at h
    cases hr : lastDigitLine t with
    | some r => rw [hr] at h; cases h; exact ih l hr
    | none =>
      rw [hr] at h
      by_cases hd : containsDigit a
      · rw [if_pos hd] at h; cases h; exact hd
      · rw [if_neg hd] at h; exact absurd h (by simp)

/-- C4 counterexample: on the input `"Answer: "` the first pattern
matches — `\s*` backs off and the lazy group captures the lone space, so
`match.group(1).strip()` is the empty string, refuting "returns a
non-empty string for every input". -/
theorem c4_counterexample : extract_final_answer ("Answer: ") = "" := by
  decide

/-- C4 amended: `extract_final_answer` is total (it is a function); it
falls back to the non-empty sentinel `"No answer found"` whenever no
pattern matches and no line contains a digit; and its result is empty
exactly when the first (answer-label) pattern matches with a
whitespace-only capture — for every other input the result is
non-empty. -/
theorem c4_extract_total (s : String) :
    ((∀ p ∈ extractPatterns, searchCapAux p s.data = none) →
      (∀ line ∈ (pyStripList s.data).splitOn '\n', containsDigit line = false) →
      extract_final_answer s = "No answer found")
    ∧ (extract_final_answer s = "" ↔
      ∃ g, searchCapAux pat1 s.data = some g ∧ pyStripList g = []) := by
  constructor
  · intro hpat hline
    unfold extract_final_answer
    rw [tryPatterns_none _ _ hpat, lastDigitLine_none _ hline]
  · constructor
    · intro hempty
      unfold extract_final_answer at hempty
      cases h1 : searchCapAux pat1 s.data with
      | some g1 =>
        refine ⟨g1, rfl, ?_⟩
        have ht : tryPatterns extractPatterns s.data = some (pyStripList g1) := by
          simp only [extractPatterns, tryPatterns, h1]
        rw [ht] at hempty
        dsimp only at hempty
        simpa using congrArg String.data hempty
      | none =>
        exfalso
        cases h2 : searchCapAux pat2 s.data with
        | some g2 =>
          have ht : tryPatterns extractPatterns s.data = some (pyStripList g2) := by
            simp only [extractPatterns, tryPatterns, h1, h2]
          rw [ht] at hempty
          dsimp only at hempty
          obtain ⟨t0, hm⟩ := searchCapAux_some pat2 s.data g2 h2
          obtain ⟨c, t', hg, hc⟩ := pat2_head t0 g2 hm
          refine @pyStripList_ne_nil g2
            ⟨c, by rw [hg]; exact List.mem_cons_self c t', numSign_not_space hc⟩ ?_
          simpa using congrArg String.data hempty
        | none =>
          cases h3 : searchCapAux pat3 s.data with
          | some g3 =>
            have ht : tryPatterns extractPatterns s.data = some (pyStripList g3) := by
              simp only [extractPatterns, tryPatterns, h1, h2, h3]
            rw [ht] at hempty
            dsimp only at hempty
            obtain ⟨t0, hm⟩ := searchCapAux_some pat3 s.data g3 h3
            obtain ⟨c, t', hg, hc⟩ := pat3_head t0 g3 hm
            refine @pyStripList_ne_nil g3
              ⟨c, by rw [hg]; exact List.mem_cons_self c t', dotDigit_not_space hc⟩ ?_
            simpa using congrArg String.data hempty
          | none =>
            cases h4 : searchCapAux pat4 s.data with
            | some g4 =>
              have ht : tryPatterns extractPatterns s.data = some (pyStripList g4) := by
                simp only [extractPatterns, tryPatterns, h1, h2, h3, h4]
              rw [ht] at hempty
              dsimp only at hempty
              obtain ⟨t0, hm⟩ := searchCapAux_some pat4 s.data g4 h4
              obtain ⟨c, t', hg, hc⟩ := pat4_head t0 g4 hm
              refine @pyStripList_ne_nil g4
                ⟨c, by rw [hg]; exact List.mem_cons_self c t', digit_not_space hc⟩ ?_
              simpa using congrArg String.data hempty
            | none =>
              cases h5 : searchCapAux pat5 s.data with
              | some g5 =>
                have ht : tryPatterns extractPatterns s.data = some (pyStripList g5) := by
                  simp only [extractPatterns, tryPatterns, h1, h2, h3, h4, h5]
                rw [ht] at hempty
                dsimp only at hempty
                obtain ⟨t0, hm⟩ := searchCapAux_some pat5 s.data g5 h5
                obtain ⟨c, t', hg, hc⟩ := pat5_head t0 g5 hm
                refine @pyStripList_ne_nil g5
                  ⟨c, by rw [hg]; exact List.mem_cons_self c t', xchar_not_space hc⟩ ?_
                simpa using congrArg String.data hempty
              | none =>
                have hnone : tryPatterns extractPatterns s.data = none := by
                  simp only [extractPatterns, tryPatterns, h1, h2, h3, h4, h5]
                rw [hnone] at hempty
                dsimp only at hempty
                cases hL : lastDigitLine ((pyStripList s.data).splitOn '\n') with
                | some line =>
                  rw [hL] at hempty
                  dsimp only at hempty
                  have hdig := lastDigitLine_some _ line hL
                  rw [containsDigit, List.any_eq_true] at hdig
                  obtain ⟨x, hx, hdx⟩ := hdig
                  refine @pyStripList_ne_nil line ⟨x, hx, digit_not_space ?_⟩ ?_
                  · simpa [isDigitChar] using hdx
                  · simpa using congrArg String.data hempty
                | none =>
                  rw [hL] at hempty
                  dsimp only at hempty
                  exact absurd hempty (by decide)
    · rintro ⟨g, hg, hstrip⟩
      unfold extract_final_answer
      have ht : tryPatterns extractPatterns s.data = some (pyStripList g) := by
        simp only [extractPatterns, tryPatterns, hg]
      rw [ht, hstrip]

/-- C4 witness: on `"hello"` no pattern matches and no line has a digit,
so the amended theorem's sentinel clause yields `"No answer found"`, and
on `"Answer: "` the emptiness clause yields the empty string at the
whitespace-only capture `[' ']`. -/
theorem c4_witness :
    extract_final_answer ("hello") = "No answer found"
    ∧ extract_final_answer ("Answer: ") = "" := by
  constructor
  · exact (c4_extract_total ("hello")).1 (by decide) (by decide)
  · exact (c4_extract_total ("Answer: ")).2.mpr ⟨[' '], by decide, by decide⟩

/-! ## Claim C1 -/

/-- Helper: the inner (strategy) loop appends exactly one record per
strategy, in listed order, each produced by `runTrial` at some call
counter. -/
theorem runStrategies_spec (api : ApiClient) (p : Problem) :
    ∀ (ss : List Strategy) (calls : Nat),
      (runStrategies api p ss calls).1.length = ss.length
      ∧ ∀ (j : Nat) (hj : j < ss.length),
          ∃ c, ((runStrategies api p ss calls).1)[j]? =
            some ((runTrial api c p (ss.get ⟨j, hj⟩)).1) := by
  intro ss
  induction ss with
  | nil =>
    intro calls
    exact ⟨rfl, fun j hj => absurd hj (by simp)⟩
  | cons s ss ih =>
    intro calls
    constructor
    · rw [runStrategies]
      dsimp only
      rw [List.length_cons, (ih (runTrial api calls p s).2).1]
      rfl
    · intro j hj
      rw [runStrategies]
      dsimp only
      cases j with
      | zero => exact ⟨calls, by simp⟩
      | succ j' =>
        obtain ⟨c, hc⟩ := (ih (runTrial api calls p s).2).2 j' (by simpa using hj)
        exact ⟨c, by simpa using hc⟩

/-- Helper: the outer (problem) loop produces the concatenation of the
inner loops' records; the record of pair `(i, j)` sits at flat index
`i * strategies.length + j` and is a `runTrial` result. -/
theorem runProblems_spec (api : ApiClient) :
    ∀ (ps : List Problem) (ss : List Strategy) (calls : Nat),
      (runProblems api ps ss calls).1.length = ps.length * ss.length
      ∧ ∀ (i j : Nat) (hi : i < ps.length) (hj : j < ss.length),
          ∃ c, ((runProblems api ps ss calls).1)[i * ss.length + j]? =
            some ((runTrial api c (ps.get ⟨i, hi⟩) (ss.get ⟨j, hj⟩)).1) := by
  intro ps
  induction ps with
  | nil =>
    intro ss calls
    exact ⟨by simp [runProblems], fun i j hi hj => absurd hi (by simp)⟩
  | cons p ps ih =>
    intro ss calls
    have hin := runStrategies_spec api p ss calls
    have hrec := ih ss (runStrategies api p ss calls).2
    constructor
    · rw [runProblems]
      dsimp only
      rw [List.length_append, hin.1, hrec.1, List.length_cons, Nat.succ_mul]
      omega
    · intro i j hi hj
      rw [runProblems]
      dsimp only
      cases i with
      | zero =>
        obtain ⟨c, hc⟩ := hin.2 j hj
        refine ⟨c, ?_⟩
        rw [List.getElem?_append_left (by rw [hin.1]; simpa using hj)]
        simpa using hc
      | succ i' =>
        obtain ⟨c, hc⟩ := hrec.2 i' j (by simpa using hi) hj
        refine ⟨c, ?_⟩
        have hidx : (i' + 1) * ss.length + j =
            (runStrategies api p ss calls).1.length + (i' * ss.length + j) := by
          rw [hin.1, Nat.succ_mul]
          omega
        rw [hidx, List.getElem?_append_right (by omega)]
        simpa using hc

/-- C1: for every problem list, strategy list and model-serving
collaborator, `run_full_evaluation` is total (it always returns a record
list — no trial outcome aborts it) and produces exactly
`problems × strategies` records; the record of pair `(i, j)` sits at flat
index `i·|strategies| + j` (problem-major, strategy-minor order) and is
the trial's outcome: a failure record carrying the exception's message
when prompt generation or the model call raises, and otherwise a success
record with the response scored and a consistency score attached. -/
theorem c1_run_full_evaluation (api : ApiClient) (problems : List Problem)
    (strategies : List Strategy) :
    (run_full_evaluation api problems strategies).length =
      problems.length * strategies.length
    ∧ (∀ (i j : Nat) (hi : i < problems.length) (hj : j < strategies.length),
        ∃ c, (run_full_evaluation api problems strategies)[i * strategies.length + j]? =
          some ((runTrial api c (problems.get ⟨i, hi⟩) (strategies.get ⟨j, hj⟩)).1))
    ∧ (∀ (c : Nat) (p : Problem) (st : Strategy),
        (∀ e, st.generate_prompt p.problem = .error e →
          (runTrial api c p st).1 = .failure p.id st.strategy_name e)
        ∧ (∀ pr e, st.generate_prompt p.problem = .ok pr → api c pr = .error e →
          (runTrial api c p st).1 = .failure p.id st.strategy_name e)
        ∧ (∀ pr resp, st.generate_prompt p.problem = .ok pr → api c pr = .ok resp →
          ∃ q, (runTrial api c p st).1 = .success {
              problem_id := p.id
              problem_text := p.problem
              expected_answer := p.expected_answer
              strategy := st.strategy_name
              response := resp
              extracted_answer := extract_final_answer resp
              accuracy_score := score_accuracy p.expected_answer (extract_final_answer resp)
              reasoning_score := score_reasoning_clarity resp
              hallucination_score := score_hallucination resp p
              category := p.category
              difficulty := p.difficulty
              consistency_score := some q })) := by
  refine ⟨(runProblems_spec api problems strategies 0).1,
    (runProblems_spec api problems strategies 0).2,
    fun c p st => ⟨fun e he => ?_, fun pr e hgen hapi => ?_, fun pr resp hgen hapi => ?_⟩⟩
  · simp only [runTrial, test_single_problem, he]
  · simp only [runTrial, test_single_problem, hgen, hapi]
  · refine ⟨(test_consistency api (c + 1) p st 2).1, ?_⟩
    simp only [runTrial, test_single_problem, hgen, hapi]

/-- C1 witness: a one-problem, one-strategy run against a collaborator
whose every call raises still returns exactly 1 × 1 records, the record of
pair (0,0) is the trial's outcome at its call counter, and a trial at
counter 0 yields the failure record carrying the exception's message. -/
theorem c1_witness :
    (run_full_evaluation raisingApi [problem1] [ZeroShotStrategy]).length = 1 * 1
    ∧ (∃ c, (run_full_evaluation raisingApi [problem1] [ZeroShotStrategy])[0 * 1 + 0]? =
        some ((runTrial raisingApi c problem1 ZeroShotStrategy).1))
    ∧ (runTrial raisingApi 0 problem1 ZeroShotStrategy).1 =
        .failure 1 "Zero-shot" "Connection failed - timeout" := by
  refine ⟨(c1_run_full_evaluation raisingApi [problem1] [ZeroShotStrategy]).1, ?_, ?_⟩
  · obtain ⟨c, hc⟩ :=
      (c1_run_full_evaluation raisingApi [problem1] [ZeroShotStrategy]).2.1
        0 0 (by decide) (by decide)
    exact ⟨c, hc⟩
  · exact ((c1_run_full_evaluation raisingApi [problem1] [ZeroShotStrategy]).2.2
      0 problem1 ZeroShotStrategy).2.1 _ ("Connection failed - timeout") rfl rfl
